import Mathlib

/-!
# Verification of `domaininator.py` (Domain Existence Checker)

Shallow embedding of `src/domaininator.py` and proofs about its claims.

Python strings are modelled as lists of Unicode code points (`List Nat`);
`str.strip()` / `str.lower()` are modelled on their ASCII fragment, which is
the fragment the program's domain-name inputs exercise.
-/

set_option linter.unusedVariables false

namespace Domaininator

/-- A Python string, as its sequence of code points. -/
abbrev PyStr := List Nat

/-- Embed a Lean string literal as a `PyStr` (used to write concrete inputs). -/
def pystr (s : String) : PyStr := s.toList.map Char.toNat

/-- Whitespace stripped by `str.strip()` (ASCII fragment):
space, tab, newline, carriage return, vertical tab, form feed. -/
def isPySpace (c : Nat) : Bool :=
  c = 32 || c = 9 || c = 10 || c = 13 || c = 11 || c = 12

/-- `str.strip()`: drop leading and trailing whitespace. -/
def pyStrip (s : PyStr) : PyStr :=
  ((s.dropWhile isPySpace).reverse.dropWhile isPySpace).reverse

/-- `str.lower()` on one code point (ASCII fragment): `A`..`Z` map to `a`..`z`. -/
def pyLowerChar (c : Nat) : Nat :=
  if 65 ≤ c ∧ c ≤ 90 then c + 32 else c

/-- `str.lower()` (ASCII fragment). -/
def pyLower (s : PyStr) : PyStr := s.map pyLowerChar

/-- `str.startswith(p)`. -/
def pyStarts : PyStr → PyStr → Bool
  | [], _ => true
  | _ :: _, [] => false
  | p :: ps, c :: cs => p == c && pyStarts ps cs

/-- `"http://"`. -/
def httpPfx : PyStr := pystr "http://"

/-- `"https://"`. -/
def httpsPfx : PyStr := pystr "https://"

/-- `"www."`. -/
def wwwPfx : PyStr := pystr "www."

/-- One step of the prefix loop, line 78-79:
`if domain.startswith(prefix): domain = domain[len(prefix):]`. -/
def dropPfx (p : PyStr) (s : PyStr) : PyStr :=
  if pyStarts p s then s.drop p.length else s

/-- Lines 77-79: `for prefix in ['http://', 'https://', 'www.']: ...`.
The loop has no `break`: each of the three prefixes is tried in turn on the
current (possibly already shortened) string. -/
def stripPfxs (s : PyStr) : PyStr :=
  dropPfx wwwPfx (dropPfx httpsPfx (dropPfx httpPfx s))

/-- `s.split(sep)[0]`: the longest prefix of `s` not containing `stop`. -/
def takeUntil (stop : Nat) : PyStr → PyStr
  | [] => []
  | c :: cs => if c = stop then [] else c :: takeUntil stop cs

/-- Line 82: `domain = domain.split('/')[0].split('?')[0]`
(`47` is `'/'`, `63` is `'?'`). -/
def stripPathQuery (s : PyStr) : PyStr :=
  takeUntil 63 (takeUntil 47 s)

/-- Line 70: `domain = domain.strip().lower()`. -/
def preNormalize (raw : PyStr) : PyStr := pyLower (pyStrip raw)

/-- Lines 77-82: prefix stripping followed by path/query stripping. -/
def stripAffixes (d : PyStr) : PyStr := stripPathQuery (stripPfxs d)

/-- The spec's `normalize`: trim, lower-case, strip prefixes, strip
path/query — the transformation pipeline of lines 70, 77-82 of
`domain_exists` (the validation of line 73 drops inputs, it does not
transform them). -/
def normalize (raw : PyStr) : PyStr := stripAffixes (preNormalize raw)

/-- Line 73 (negated): the domain is kept when it is nonempty, contains a
`'.'` (code `46`) and has length at most 253.  The code rejects with
`if not domain or '.' not in domain or len(domain) > 253`. -/
def basicValid (d : PyStr) : Bool :=
  !d.isEmpty && d.contains 46 && decide (d.length ≤ 253)

example : normalize (pystr "  WWW.Google.com  ") = pystr "google.com" := by decide
example : normalize (pystr "http://www.foo.com") = pystr "foo.com" := by decide
example : normalize (pystr "www.www.foo.com") = pystr "www.foo.com" := by decide
example : normalize (pystr "https://a.b/c?d") = pystr "a.b" := by decide
example : basicValid (pystr "a.b") = true := by decide
example : basicValid (pystr "nodot") = false := by decide

/-- Outcome of one `socket.gethostbyname(domain)` call (lines 92, 97, 102,
110): it returns an address, raises `socket.gaierror`, raises
`socket.timeout`, or raises some other `Exception` carrying a message. -/
inductive ResolveOutcome where
  | resolved
  | gaierror
  | timedOut
  | unexpected (msg : PyStr)
deriving DecidableEq, Repr

/-- What one call of `domain_exists` produces: the returned pair
`(domain, exists-flag)`, the number of resolution attempts actually made,
and the debug diagnostics emitted (line 113 logs the pair
(domain, exception message)). -/
structure DEResult where
  domain : PyStr
  found : Bool
  attempts : Nat
  logs : List (PyStr × PyStr)
deriving DecidableEq, Repr

/-- Lines 85-116: `for attempt in range(self.retry_count + 1): ...`.
`resolver k` is the outcome of the `k`-th `gethostbyname` call; `attempt`
is the Python loop variable; `remaining` the number of loop iterations
left (initially `retry_count + 1`).  Falling off the loop reaches line 116
(`return (domain, False)`).  The `socket.setdefaulttimeout` bookkeeping
(global resolver state) and the `time.sleep(0.5)` backoff have no bearing
on the returned value and are not modelled. -/
def forLoop (resolver : Nat → ResolveOutcome) (retryCount : Nat) (domain : PyStr)
    (attempt : Nat) : Nat → DEResult
  | 0 => ⟨domain, false, attempt, []⟩
  | remaining + 1 =>
    match resolver attempt with
    | .resolved => ⟨domain, true, attempt + 1, []⟩
    | .gaierror => ⟨domain, false, attempt + 1, []⟩
    | .timedOut =>
      if attempt < retryCount then
        forLoop resolver retryCount domain (attempt + 1) remaining
      else ⟨domain, false, attempt + 1, []⟩
    | .unexpected msg => ⟨domain, false, attempt + 1, [(domain, msg)]⟩

/-- Lines 70-116, `DomainChecker.domain_exists`.  Note the order in the
source: line 70 trims and lower-cases, line 73 validates, and only lines
77-82 strip prefixes and path/query; the early `return (domain, False)` of
line 74 therefore returns the *pre-strip* string and makes no resolution
attempt. -/
def domainExists (resolver : Nat → ResolveOutcome) (retryCount : Nat)
    (raw : PyStr) : DEResult :=
  let domain := preNormalize raw
  if basicValid domain then
    let domain2 := stripAffixes domain
    forLoop resolver retryCount domain2 0 (retryCount + 1)
  else
    ⟨domain, false, 0, []⟩

/-- The `(domain, exists)` pair as the caller of `domain_exists` sees it. -/
def domainExistsPair (resolver : Nat → ResolveOutcome) (retryCount : Nat)
    (raw : PyStr) : PyStr × Bool :=
  ((domainExists resolver retryCount raw).domain,
   (domainExists resolver retryCount raw).found)

example :
    domainExists (fun _ => .resolved) 2 (pystr "WWW.Google.com")
      = ⟨pystr "google.com", true, 1, []⟩ := by decide
example :
    domainExists (fun _ => .timedOut) 2 (pystr "a.b")
      = ⟨pystr "a.b", false, 3, []⟩ := by decide
example :
    domainExists (fun _ => .resolved) 2 (pystr "nodot")
      = ⟨pystr "nodot", false, 0, []⟩ := by decide

/-- Lines 213-216: one future per entry of `domains`, each computing
`self.domain_exists(domain)`; `check` stands for that bound method. -/
def engineVerdicts (check : PyStr → PyStr × Bool) (domains : List PyStr) :
    List (PyStr × Bool) :=
  domains.map check

/-- Lines 220-223: the body of the `as_completed` loop keeps the verdict
domains whose flag is true, in completion order (`completed` is the
completion-ordered verdict stream, a permutation of the submitted checks). -/
def collectExisting (completed : List (PyStr × Bool)) : List PyStr :=
  completed.filterMap (fun v => if v.2 then some v.1 else none)

/-- Line 224: `pbar.update(1)` once per completed verdict. -/
def progressCount (completed : List (PyStr × Bool)) : Nat := completed.length

/-- Lines 139-151 of `load_domains_from_file`: per-line cleaning. -/
def cleanLines (lines : List PyStr) : List PyStr :=
  lines.filterMap fun line =>
    let domain := pyStrip line
    if domain.isEmpty then none
    else if pyStarts (pystr "#") domain then none
    else if 253 < domain.length then none
    else some domain

/-- Line 154: `list(dict.fromkeys(domains))` — keep the first occurrence of
each (raw, merely trimmed) string. -/
def dedupFirst (seen : List PyStr) : List PyStr → List PyStr
  | [] => []
  | d :: ds =>
    if d ∈ seen then dedupFirst seen ds
    else d :: dedupFirst (d :: seen) ds

/-- Lines 136-159, `load_domains_from_file`, applied to the file's lines. -/
def loadDomains (lines : List PyStr) : List PyStr :=
  dedupFirst [] (cleanLines lines)

example :
    loadDomains [pystr "google.com", pystr "WWW.Google.com", pystr "",
        pystr "# comment", pystr "nonexistent-domain-abc123xyz.invalid"]
      = [pystr "google.com", pystr "WWW.Google.com",
         pystr "nonexistent-domain-abc123xyz.invalid"] := by decide

/-- Lexicographic comparison of code-point strings, Python's `<=` on `str`
as used by `sorted`. -/
def strLe : PyStr → PyStr → Bool
  | [], _ => true
  | _ :: _, [] => false
  | a :: as, b :: bs =>
    if a < b then true else if b < a then false else strLe as bs

/-- Insert into a `strLe`-sorted list. -/
def insertSorted (x : PyStr) : List PyStr → List PyStr
  | [] => [x]
  | y :: ys => if strLe x y then x :: y :: ys else y :: insertSorted x ys

/-- Line 185: `sorted(domains)` (stable ascending sort). -/
def sortDomains : List PyStr → List PyStr
  | [] => []
  | x :: xs => insertSorted x (sortDomains xs)

/-- Observable file-system effects of `save_domains_to_file`. -/
inductive FsEffect where
  | mkdirParents (path : PyStr)
  | writeFile (path : PyStr) (lines : List PyStr)
deriving DecidableEq, Repr

/-- Lines 180-188, `save_domains_to_file`: make the parent directories of
the output file, then write the sorted domains, one per line. -/
def saveDomainsToFile (domains : List PyStr) (outputFile : PyStr) :
    List FsEffect :=
  [FsEffect.mkdirParents outputFile,
   FsEffect.writeFile outputFile (sortDomains domains)]

/-- Lines 250-273 of `filter_existing_domains`, reduced to its file-system
effects after loading: an empty domain list returns early (line 252); an
empty existing list only prints a warning (line 273); a non-empty existing
list calls `save_domains_to_file` (line 263). -/
def filterExistingFs (domains : List PyStr) (check : PyStr → PyStr × Bool)
    (outputFile : PyStr) : List FsEffect :=
  if domains.isEmpty then []
  else
    let existing := collectExisting (engineVerdicts check domains)
    if existing.isEmpty then [] else saveDomainsToFile existing outputFile

/-- Lines 369-375 of `main`: `if args.timeout <= 0: exit` and
`if args.workers <= 0 or args.workers > 200: exit`.  `retries` is parsed
(lines 329-334) but never validated.  Returns `true` iff all validation
gates pass (the timeout is embedded as a rational: the float comparisons
involved are exact order comparisons). -/
def validateArgs (inputExists : Bool) (timeout : ℚ) (workers : Int) : Bool :=
  inputExists && !(decide (timeout ≤ 0)) &&
    !(decide (workers ≤ 0) || decide (200 < workers))

/-- Lines 357-384 of `main`: when validation passes, the `DomainChecker`
is built with the given timeout, workers, retries and the run proceeds
(`some cfg` = the Concurrency Engine will be invoked with `cfg`). -/
def mainModel (inputExists : Bool) (timeout : ℚ) (workers : Int)
    (retries : Int) : Option (ℚ × Int × Int) :=
  if validateArgs inputExists timeout workers then
    some (timeout, workers, retries)
  else none

/-! ## Lemmas about the retry loop -/

theorem forLoop_domain (resolver : Nat → ResolveOutcome) (rc : Nat) (d : PyStr) :
    ∀ remaining attempt, (forLoop resolver rc d attempt remaining).domain = d := by
  intro remaining
  induction remaining with
  | zero => intro attempt; rfl
  | succ n ih =>
    intro attempt
    unfold forLoop
    cases hres : resolver attempt with
    | resolved => rfl
    | gaierror => rfl
    | timedOut =>
      by_cases h : attempt < rc
      · simp only [h, if_true]
        exact ih (attempt + 1)
      · simp only [h, if_false]
    | unexpected msg => rfl

theorem forLoop_timedOut_all (resolver : Nat → ResolveOutcome) (rc : Nat)
    (d : PyStr) (hall : ∀ k, resolver k = ResolveOutcome.timedOut) :
    ∀ remaining attempt, attempt + remaining = rc + 1 →
      forLoop resolver rc d attempt remaining = ⟨d, false, rc + 1, []⟩ := by
  intro remaining
  induction remaining with
  | zero =>
    intro attempt h
    have : attempt = rc + 1 := by omega
    simp [forLoop, this]
  | succ n ih =>
    intro attempt h
    unfold forLoop
    rw [hall attempt]
    by_cases hlt : attempt < rc
    · simp only [hlt, if_true]
      exact ih (attempt + 1) (by omega)
    · have ha : attempt = rc := by omega
      have hn : n = 0 := by omega
      simp [hlt, ha]

theorem forLoop_skip_timeouts (resolver : Nat → ResolveOutcome) (rc : Nat)
    (d : PyStr) :
    ∀ n attempt remaining, attempt + remaining = rc + 1 → attempt + n ≤ rc →
      (∀ j, attempt ≤ j → j < attempt + n → resolver j = ResolveOutcome.timedOut) →
      forLoop resolver rc d attempt remaining
        = forLoop resolver rc d (attempt + n) (remaining - n) := by
  intro n
  induction n with
  | zero => intro attempt remaining _ _ _; simp
  | succ m ih =>
    intro attempt remaining hsum hle ht
    obtain ⟨r, hr⟩ : ∃ r, remaining = r + 1 := ⟨remaining - 1, by omega⟩
    subst hr
    simp only [forLoop]
    rw [ht attempt (Nat.le_refl _) (by omega)]
    have hlt : attempt < rc := by omega
    simp only [hlt, if_true]
    have h1 : attempt + (m + 1) = (attempt + 1) + m := by omega
    have h2 : (r + 1) - (m + 1) = r - m := by omega
    rw [h1, h2]
    exact ih (attempt + 1) r (by omega) (by omega)
      (fun j hj1 hj2 => ht j (by omega) (by omega))

/-! ## C2: retry policy of `domain_exists` -/

/-- C2 (confirmed): for every Domain that passes the basic validation and
every retry count, the retry loop retries only on timeout: a resolver that
times out on every attempt yields `(domain, false)` after exactly
`retry_count + 1` attempts; `gaierror` on the first attempt yields
`(domain, false)` after exactly 1 attempt, consuming no retries; a resolver
that resolves yields `(domain, true)` immediately (1 attempt). -/
theorem retry_policy_behaviour (resolver : Nat → ResolveOutcome) (rc : Nat)
    (raw : PyStr) (hv : basicValid (preNormalize raw) = true) :
    ((∀ k, resolver k = ResolveOutcome.timedOut) →
        domainExists resolver rc raw = ⟨normalize raw, false, rc + 1, []⟩)
    ∧ (resolver 0 = ResolveOutcome.gaierror →
        domainExists resolver rc raw = ⟨normalize raw, false, 1, []⟩)
    ∧ (resolver 0 = ResolveOutcome.resolved →
        domainExists resolver rc raw = ⟨normalize raw, true, 1, []⟩) := by
  refine ⟨fun hall => ?_, fun h0 => ?_, fun h0 => ?_⟩ <;>
    simp only [domainExists, hv, if_true]
  · exact forLoop_timedOut_all resolver rc _ hall (rc + 1) 0 (by omega)
  · unfold forLoop; rw [h0]; rfl
  · unfold forLoop; rw [h0]; rfl

/-- C2 witness: the three behaviours at `retry_count = 1` on `"a.b"`. -/
theorem retry_policy_behaviour_witness :
    basicValid (preNormalize (pystr "a.b")) = true
    ∧ domainExists (fun _ => ResolveOutcome.timedOut) 1 (pystr "a.b")
        = ⟨normalize (pystr "a.b"), false, 1 + 1, []⟩
    ∧ domainExists (fun _ => ResolveOutcome.gaierror) 1 (pystr "a.b")
        = ⟨normalize (pystr "a.b"), false, 1, []⟩
    ∧ domainExists (fun _ => ResolveOutcome.resolved) 1 (pystr "a.b")
        = ⟨normalize (pystr "a.b"), true, 1, []⟩ :=
  ⟨by decide,
   (retry_policy_behaviour _ 1 _ (by decide)).1 (fun _ => rfl),
   (retry_policy_behaviour _ 1 _ (by decide)).2.1 rfl,
   (retry_policy_behaviour _ 1 _ (by decide)).2.2 rfl⟩

/-! ## C3: no error propagates out of `domain_exists` -/

/-- C3 (confirmed): `domain_exists` converts every resolver outcome into a
returned pair.  In particular an unexpected exception at the terminating
attempt `k` (everything before it timed out) is caught by the
`except Exception` clause and becomes `(domain, false)` together with a
debug diagnostic naming the domain and the exception; nothing escapes to
the caller. -/
theorem unexpected_error_converted (resolver : Nat → ResolveOutcome)
    (rc : Nat) (raw : PyStr) (k : Nat) (msg : PyStr)
    (hv : basicValid (preNormalize raw) = true) (hk : k ≤ rc)
    (ht : ∀ j, j < k → resolver j = ResolveOutcome.timedOut)
    (he : resolver k = ResolveOutcome.unexpected msg) :
    domainExists resolver rc raw
      = ⟨normalize raw, false, k + 1, [(normalize raw, msg)]⟩ := by
  simp only [domainExists, hv, if_true]
  rw [forLoop_skip_timeouts resolver rc _ k 0 (rc + 1) (by omega) (by omega)
    (fun j _ hj => ht j (by omega))]
  obtain ⟨r, hr⟩ : ∃ r, rc + 1 - k = r + 1 := ⟨rc - k, by omega⟩
  rw [hr]
  unfold forLoop
  rw [show (0 + k) = k by omega, he]
  rfl

/-- C3 witness: an unexpected exception on the only attempt is converted,
not propagated. -/
theorem unexpected_error_converted_witness :
    domainExists (fun _ => ResolveOutcome.unexpected (pystr "boom")) 0
        (pystr "a.b")
      = ⟨normalize (pystr "a.b"), false, 0 + 1,
         [(normalize (pystr "a.b"), pystr "boom")]⟩ :=
  unexpected_error_converted _ 0 _ 0 _ (by decide) (Nat.le_refl 0)
    (fun j hj => absurd hj (Nat.not_lt_zero j)) rfl

/-! ## C5: validation happens before stripping -/

set_option maxRecDepth 40000 in
/-- C5 counterexample: a raw string of length 257 (`"http://"` followed by
246 `'a'`s and `".com"`) whose stripped form has length 250 and contains a
`'.'` is nonetheless rejected at line 73: even a resolver that always
resolves is never consulted (`attempts = 0`) and the verdict is `false`,
because the length check runs before prefix stripping. -/
theorem validation_order_counterexample :
    253 < (pystr "http://" ++ List.replicate 246 97 ++ pystr ".com").length
    ∧ (stripAffixes
        (pystr "http://" ++ List.replicate 246 97 ++ pystr ".com")).length ≤ 253
    ∧ (stripAffixes
        (pystr "http://" ++ List.replicate 246 97 ++ pystr ".com")).contains 46
        = true
    ∧ domainExists (fun _ => ResolveOutcome.resolved) 2
        (pystr "http://" ++ List.replicate 246 97 ++ pystr ".com")
      = ⟨pystr "http://" ++ List.replicate 246 97 ++ pystr ".com",
         false, 0, []⟩ := by
  refine ⟨by decide, by decide, by decide, by decide⟩

/-- C5 (corrected): the basic validation (nonempty, contains `'.'`, length
at most 253) is applied to the merely trimmed and lower-cased raw string,
*before* prefix and path/query stripping; every raw string failing it is
rejected immediately, with no resolution attempt, returning the pre-strip
string. -/
theorem validation_precedes_strip (resolver : Nat → ResolveOutcome)
    (rc : Nat) (raw : PyStr)
    (h : basicValid (preNormalize raw) = false) :
    domainExists resolver rc raw = ⟨preNormalize raw, false, 0, []⟩ := by
  simp [domainExists, h]

/-- C5 witness: a dotless input is rejected with zero attempts. -/
theorem validation_precedes_strip_witness :
    domainExists (fun _ => ResolveOutcome.resolved) 2 (pystr "nodot")
      = ⟨preNormalize (pystr "nodot"), false, 0, []⟩ :=
  validation_precedes_strip _ 2 _ (by decide)

/-! ## C9: which string the verdict names -/

/-- C9 counterexample: for the rejected input `"HTTP://FOOBAR"` (no `'.'`)
the returned domain is the merely trimmed and lower-cased string
`"http://foobar"`, not the fully normalized `"foobar"`. -/
theorem verdict_domain_counterexample :
    (domainExists (fun _ => ResolveOutcome.resolved) 0
        (pystr "HTTP://FOOBAR")).domain = pystr "http://foobar"
    ∧ normalize (pystr "HTTP://FOOBAR") = pystr "foobar"
    ∧ (domainExists (fun _ => ResolveOutcome.resolved) 0
        (pystr "HTTP://FOOBAR")).domain ≠ normalize (pystr "HTTP://FOOBAR") := by
  refine ⟨by decide, by decide, by decide⟩

/-- C9 (corrected): the domain component of the returned pair is the fully
normalized form of the input exactly when the trimmed lower-cased input
passes the basic validation; a rejected input's verdict instead names the
merely trimmed and lower-cased string (stripping never ran). -/
theorem verdict_domain_normalized (resolver : Nat → ResolveOutcome)
    (rc : Nat) (raw : PyStr) :
    (basicValid (preNormalize raw) = true →
        (domainExists resolver rc raw).domain = normalize raw)
    ∧ (basicValid (preNormalize raw) = false →
        (domainExists resolver rc raw).domain = preNormalize raw) := by
  constructor
  · intro hv
    simp only [domainExists, hv, if_true]
    exact forLoop_domain resolver rc _ (rc + 1) 0
  · intro hv
    simp [domainExists, hv]

/-- C9 witness: a caller submitting `"WWW.Google.com"` receives a verdict
naming `"google.com"`. -/
theorem verdict_domain_normalized_witness :
    (domainExists (fun _ => ResolveOutcome.resolved) 0
        (pystr "WWW.Google.com")).domain = normalize (pystr "WWW.Google.com")
    ∧ normalize (pystr "WWW.Google.com") = pystr "google.com" :=
  ⟨(verdict_domain_normalized (fun _ => ResolveOutcome.resolved) 0
      (pystr "WWW.Google.com")).1 (by decide), by decide⟩

/-! ## C1: verdict count and membership of the engine's result -/

/-- C1 counterexample: with a resolver that always resolves, submitting the
single raw domain `"WWW.A.B"` makes `check_domains_concurrent` return
`["a.b"]` — the verdict carries the normalized name, so the returned
existing-domain list is not a subset of the input set. -/
theorem engine_subset_counterexample :
    collectExisting
        (engineVerdicts (domainExistsPair (fun _ => ResolveOutcome.resolved) 0)
          [pystr "WWW.A.B"])
      = [pystr "a.b"]
    ∧ pystr "a.b" ∉ [pystr "WWW.A.B"] := by
  refine ⟨by decide, by decide⟩

/-- C1 (corrected): for every check function and every completion order
(any permutation of the submitted checks' verdicts), the engine processes
exactly `len(domains)` verdicts — one per submitted domain, no drops and no
duplicates, whatever each verdict is — and every domain in the returned
existing list is the verdict domain of some submitted input whose check
returned `true` (the *normalized* name of an input, not necessarily an
element of the input list itself). -/
theorem engine_verdict_invariant (check : PyStr → PyStr × Bool)
    (domains : List PyStr) (completed : List (PyStr × Bool))
    (hperm : completed.Perm (engineVerdicts check domains)) :
    progressCount completed = domains.length
    ∧ ∀ x ∈ collectExisting completed,
        ∃ d, d ∈ domains ∧ check d = (x, true) := by
  constructor
  · calc progressCount completed = completed.length := rfl
      _ = (engineVerdicts check domains).length := hperm.length_eq
      _ = domains.length := List.length_map _ _
  · intro x hx
    obtain ⟨v, hv, hvx⟩ := List.mem_filterMap.mp hx
    have hvx2 : v = (x, true) := by
      rcases v with ⟨a, b⟩
      cases b with
      | true => simpa using hvx
      | false => simp at hvx
    subst hvx2
    have hmem : (x, true) ∈ engineVerdicts check domains := hperm.mem_iff.mp hv
    obtain ⟨d, hd, hcd⟩ := List.mem_map.mp hmem
    exact ⟨d, hd, hcd⟩

/-- C1 witness: the invariant at a concrete input and completion order. -/
theorem engine_verdict_invariant_witness :
    progressCount
        (engineVerdicts (domainExistsPair (fun _ => ResolveOutcome.resolved) 0)
          [pystr "a.b", pystr "c.d"]) = 2
    ∧ ∀ x ∈ collectExisting
          (engineVerdicts (domainExistsPair (fun _ => ResolveOutcome.resolved) 0)
            [pystr "a.b", pystr "c.d"]),
        ∃ d, d ∈ [pystr "a.b", pystr "c.d"]
          ∧ domainExistsPair (fun _ => ResolveOutcome.resolved) 0 d = (x, true) :=
  engine_verdict_invariant _ [pystr "a.b", pystr "c.d"] _ (List.Perm.refl _)

/-! ## C4: how many prefixes are stripped -/

/-- C4 counterexample: an input starting with `http://www.` loses *both*
prefixes — the prefix loop has no `break` — so the `www.` part is *not*
retained, contradicting the claim that at most one prefix is stripped. -/
theorem prefix_strip_counterexample :
    normalize (pystr "http://www.foo.com") = pystr "foo.com"
    ∧ normalize (pystr "http://www.foo.com") ≠ pystr "www.foo.com" := by
  refine ⟨by decide, by decide⟩

/-- C4 (corrected): the prefix loop makes a single pass over `http://`,
`https://`, `www.` in that order, stripping *each* prefix at most once from
the current string: a scheme followed by `www.` loses both (first
conjunct, for every tail `t`), while a repeated `www.` is stripped only
once, since the pass does not revisit an already-checked prefix (second
conjunct). -/
theorem prefix_strip_single_pass (t : PyStr) :
    stripPfxs (pystr "http://www." ++ t) = t
    ∧ stripPfxs (pystr "www.www." ++ t) = pystr "www." ++ t :=
  ⟨rfl, rfl⟩

/-! ## C7: what the loader produces on the scenario input -/

/-- C7 counterexample: on the scenario input the loader yields three
domains, not the claimed two: `"WWW.Google.com"` is *not* removed, because
line 154 deduplicates raw (merely trimmed) strings and `"WWW.Google.com"`
differs from `"google.com"` as a raw string. -/
theorem loader_scenario_counterexample :
    loadDomains [pystr "google.com", pystr "WWW.Google.com", pystr "",
        pystr "# comment", pystr "nonexistent-domain-abc123xyz.invalid"]
      ≠ [pystr "google.com", pystr "nonexistent-domain-abc123xyz.invalid"] := by
  decide

/-- C7 (corrected): on the scenario input the loader keeps the empty line
and the comment out, but retains the case-variant duplicate: it produces
`["google.com", "WWW.Google.com", "nonexistent-domain-abc123xyz.invalid"]`.
Case-variants collapse only later, inside `domain_exists`, whose verdict
for `"WWW.Google.com"` names `"google.com"`. -/
theorem loader_scenario :
    loadDomains [pystr "google.com", pystr "WWW.Google.com", pystr "",
        pystr "# comment", pystr "nonexistent-domain-abc123xyz.invalid"]
      = [pystr "google.com", pystr "WWW.Google.com",
         pystr "nonexistent-domain-abc123xyz.invalid"]
    ∧ (domainExists (fun _ => ResolveOutcome.resolved) 1
        (pystr "WWW.Google.com")).domain = pystr "google.com"
    ∧ (domainExists (fun _ => ResolveOutcome.resolved) 1
        (pystr "google.com")).domain = pystr "google.com" := by
  refine ⟨by decide, by decide, by decide⟩

/-! ## C8: which configuration fields are validated -/

/-- C8 counterexample: `retries = -3` with valid timeout and workers passes
every validation gate of `main`; the run proceeds and the `DomainChecker`
is built with the negative retry count — no validation failure occurs. -/
theorem config_validation_counterexample :
    mainModel true 5 50 (-3) = some (5, 50, -3) ∧ (-3 : Int) < 0 := by
  constructor
  · rfl
  · decide

/-- C8 (corrected): `main` validates, before any resolution work, exactly
the input-file existence, `timeout > 0` and `workers ∈ [1, 200]`; the run
proceeds if and only if these hold — `retry_count` is never validated and
does not influence whether the engine is invoked. -/
theorem config_validation_exact (inputExists : Bool) (timeout : ℚ)
    (workers : Int) (retries : Int) :
    (mainModel inputExists timeout workers retries).isSome = true
      ↔ (inputExists = true ∧ 0 < timeout ∧ 1 ≤ workers ∧ workers ≤ 200) := by
  have hiff : validateArgs inputExists timeout workers = true
      ↔ (inputExists = true ∧ 0 < timeout ∧ 1 ≤ workers ∧ workers ≤ 200) := by
    simp only [validateArgs, Bool.and_eq_true, Bool.not_eq_true',
      decide_eq_false_iff_not, Bool.or_eq_false_iff, not_le, not_lt]
    constructor
    · rintro ⟨⟨h1, h2⟩, h3, h4⟩
      exact ⟨h1, h2, by omega, by omega⟩
    · rintro ⟨h1, h2, h3, h4⟩
      exact ⟨⟨h1, h2⟩, by omega, by omega⟩
  constructor
  · intro h
    apply hiff.mp
    by_contra hv
    rw [Bool.not_eq_true] at hv
    simp [mainModel, hv] at h
  · intro h
    simp [mainModel, hiff.mpr h]

/-! ## C10: file-system effects of the result-saving step -/

/-- C10 (confirmed): when the concurrent check yields an empty
existing-domain list, `filter_existing_domains` performs no file-system
effect at all — `save_domains_to_file` is not called, so no parent
directory is made and no file is written; a non-empty existing list always
triggers exactly the save (mkdir then write). -/
theorem filter_save_effects (domains : List PyStr)
    (check : PyStr → PyStr × Bool) (outputFile : PyStr) :
    (collectExisting (engineVerdicts check domains) = [] →
        filterExistingFs domains check outputFile = [])
    ∧ (collectExisting (engineVerdicts check domains) ≠ [] →
        filterExistingFs domains check outputFile
          = saveDomainsToFile (collectExisting (engineVerdicts check domains))
              outputFile) := by
  constructor
  · intro h
    unfold filterExistingFs
    by_cases hd : domains.isEmpty
    · simp [hd]
    · simp [hd, h]
  · intro h
    have hd : domains.isEmpty = false := by
      rcases domains with _ | ⟨a, l⟩
      · exact absurd rfl h
      · rfl
    unfold filterExistingFs
    simp only [hd, Bool.false_eq_true, if_false]
    have he : (collectExisting (engineVerdicts check domains)).isEmpty = false := by
      rcases hcol : collectExisting (engineVerdicts check domains) with _ | ⟨a, l⟩
      · exact absurd hcol h
      · rfl
    simp [he]

/-- C10 witness: both behaviours at concrete inputs. -/
theorem filter_save_effects_witness :
    filterExistingFs [pystr "a.b"] (fun d => (d, false)) (pystr "out.txt") = []
    ∧ filterExistingFs [pystr "a.b"] (fun d => (d, true)) (pystr "out.txt")
        = saveDomainsToFile
            (collectExisting (engineVerdicts (fun d => (d, true)) [pystr "a.b"]))
            (pystr "out.txt") :=
  ⟨(filter_save_effects [pystr "a.b"] (fun d => (d, false)) (pystr "out.txt")).1
      (by decide),
   (filter_save_effects [pystr "a.b"] (fun d => (d, true)) (pystr "out.txt")).2
      (by decide)⟩

/-! ## C6: idempotence of normalization -/

theorem mem_of_mem_dropWhile {p : Nat → Bool} {x : Nat} :
    ∀ {s : PyStr}, x ∈ s.dropWhile p → x ∈ s := by
  intro s
  induction s with
  | nil => intro h; simp at h
  | cons a l ih =>
    intro h
    rw [List.dropWhile_cons] at h
    split at h
    · exact List.mem_cons_of_mem a (ih h)
    · exact h

theorem mem_of_mem_pyStrip {x : Nat} {s : PyStr} (h : x ∈ pyStrip s) :
    x ∈ s := by
  unfold pyStrip at h
  rw [List.mem_reverse] at h
  have h2 := mem_of_mem_dropWhile h
  rw [List.mem_reverse] at h2
  exact mem_of_mem_dropWhile h2

theorem mem_of_pyStarts :
    ∀ {p s : PyStr}, pyStarts p s = true → ∀ x ∈ p, x ∈ s := by
  intro p
  induction p with
  | nil => intro s _ x hx; simp at hx
  | cons a ps ih =>
    intro s h x hx
    cases s with
    | nil => simp [pyStarts] at h
    | cons c cs =>
      simp only [pyStarts, Bool.and_eq_true, beq_iff_eq] at h
      rcases List.mem_cons.mp hx with rfl | hx2
      · rw [h.1]
        exact List.mem_cons_self c cs
      · exact List.mem_cons_of_mem c (ih h.2 x hx2)

theorem mem_of_mem_dropPfx {p s : PyStr} {x : Nat} (h : x ∈ dropPfx p s) :
    x ∈ s := by
  unfold dropPfx at h
  split at h
  · exact List.drop_subset _ _ h
  · exact h

theorem mem_of_mem_stripPfxs {s : PyStr} {x : Nat} (h : x ∈ stripPfxs s) :
    x ∈ s :=
  mem_of_mem_dropPfx (mem_of_mem_dropPfx (mem_of_mem_dropPfx h))

theorem mem_of_mem_takeUntil {stop x : Nat} :
    ∀ {s : PyStr}, x ∈ takeUntil stop s → x ∈ s ∧ x ≠ stop := by
  intro s
  induction s with
  | nil => intro h; simp [takeUntil] at h
  | cons a l ih =>
    intro h
    simp only [takeUntil] at h
    split at h
    · simp at h
    · rename_i hne
      rcases List.mem_cons.mp h with rfl | h2
      · exact ⟨List.mem_cons_self _ _, hne⟩
      · have h3 := ih h2
        exact ⟨List.mem_cons_of_mem _ h3.1, h3.2⟩

theorem takeUntil_eq_self {stop : Nat} :
    ∀ {s : PyStr}, stop ∉ s → takeUntil stop s = s := by
  intro s
  induction s with
  | nil => intro _; rfl
  | cons a l ih =>
    intro h
    have ha : ¬(a = stop) := fun he => h (he ▸ List.mem_cons_self a l)
    simp only [takeUntil, ha, if_false]
    rw [ih (fun hm => h (List.mem_cons_of_mem a hm))]

theorem pyLowerChar_idem (c : Nat) :
    pyLowerChar (pyLowerChar c) = pyLowerChar c := by
  unfold pyLowerChar
  split_ifs <;> omega

theorem pyLower_map_fixed :
    ∀ {s : PyStr}, (∀ x ∈ s, pyLowerChar x = x) → pyLower s = s := by
  intro s
  induction s with
  | nil => intro _; rfl
  | cons a l ih =>
    intro h
    show pyLowerChar a :: pyLower l = a :: l
    rw [h a (List.mem_cons_self a l),
      ih (fun x hx => h x (List.mem_cons_of_mem a hx))]

theorem dropPfx_of_not_starts {p s : PyStr} (h : pyStarts p s = false) :
    dropPfx p s = s := by
  simp [dropPfx, h]

/-- Every code point of a normalized domain is lower-case-fixed and is
neither `'/'` (47) nor `'?'` (63). -/
theorem mem_normalize_fixed {raw : PyStr} {x : Nat} (h : x ∈ normalize raw) :
    pyLowerChar x = x ∧ x ≠ 47 ∧ x ≠ 63 := by
  unfold normalize stripAffixes stripPathQuery at h
  obtain ⟨h1, hne63⟩ := mem_of_mem_takeUntil h
  obtain ⟨h2, hne47⟩ := mem_of_mem_takeUntil h1
  have h3 : x ∈ preNormalize raw := mem_of_mem_stripPfxs h2
  unfold preNormalize pyLower at h3
  obtain ⟨y, _, hy⟩ := List.mem_map.mp h3
  exact ⟨hy ▸ pyLowerChar_idem y, hne47, hne63⟩

theorem pyStarts_false_of_slash {p n : PyStr} (hp : (47 : Nat) ∈ p)
    (hn : (47 : Nat) ∉ n) : pyStarts p n = false := by
  cases h : pyStarts p n
  · rfl
  · exact absurd (mem_of_pyStarts h 47 hp) hn

/-- C6 counterexample: `"www.www.foo.com"` is a valid raw input (it passes
the basic validation), yet normalizing its normal form `"www.foo.com"`
yields `"foo.com"`: normalization is not idempotent, because a single
stripping pass can expose a fresh `www.` prefix. -/
theorem normalize_not_idempotent :
    basicValid (preNormalize (pystr "www.www.foo.com")) = true
    ∧ normalize (pystr "www.www.foo.com") = pystr "www.foo.com"
    ∧ normalize (normalize (pystr "www.www.foo.com")) = pystr "foo.com"
    ∧ normalize (normalize (pystr "www.www.foo.com"))
        ≠ normalize (pystr "www.www.foo.com") := by
  refine ⟨by decide, by decide, by decide, by decide⟩

/-- C6 (corrected): normalization is idempotent exactly on the inputs whose
normal form is whitespace-trimmed and does not itself begin with `www.`: for
every raw input whose normal form `n` satisfies `strip(n) = n` and
`not n.startswith('www.')`, normalizing `n` returns `n` unchanged.  (A
normal form can violate these side conditions — e.g. for raw inputs
`"www.www.foo.com"` or `"foo.com /x"` — and then a second pass strips
further.) -/
theorem normalize_idem_cond (raw : PyStr)
    (h1 : pyStrip (normalize raw) = normalize raw)
    (h2 : pyStarts wwwPfx (normalize raw) = false) :
    normalize (normalize raw) = normalize raw := by
  have hfix : ∀ x ∈ normalize raw, pyLowerChar x = x ∧ x ≠ 47 ∧ x ≠ 63 :=
    fun x hx => mem_normalize_fixed hx
  have h47 : (47 : Nat) ∉ normalize raw := fun h => (hfix 47 h).2.1 rfl
  have h63 : (63 : Nat) ∉ normalize raw := fun h => (hfix 63 h).2.2 rfl
  have hlow : pyLower (normalize raw) = normalize raw :=
    pyLower_map_fixed (fun x hx => (hfix x hx).1)
  have hhttp : pyStarts httpPfx (normalize raw) = false :=
    pyStarts_false_of_slash (by decide) h47
  have hhttps : pyStarts httpsPfx (normalize raw) = false :=
    pyStarts_false_of_slash (by decide) h47
  show stripAffixes (preNormalize (normalize raw)) = normalize raw
  unfold preNormalize
  rw [h1, hlow]
  unfold stripAffixes stripPfxs
  rw [dropPfx_of_not_starts hhttp, dropPfx_of_not_starts hhttps,
    dropPfx_of_not_starts h2]
  unfold stripPathQuery
  rw [takeUntil_eq_self h47, takeUntil_eq_self h63]

/-- C6 witness: the side conditions hold for `"  WWW.Google.com"`, whose
normal form `"google.com"` normalizes to itself. -/
theorem normalize_idem_cond_witness :
    normalize (normalize (pystr "  WWW.Google.com"))
      = normalize (pystr "  WWW.Google.com") :=
  normalize_idem_cond (pystr "  WWW.Google.com") (by decide) (by decide)

end Domaininator
